import Mathlib

/-!
Verification of the pngme chunk codec: `ChunkType` (src/chunk_type.rs) and
`Chunk` (src/chunk.rs), with the error plumbing of src/main.rs.  Bytes are
modelled as `Nat` (a byte is a value `< 256`), byte buffers as `List Nat`,
and fallible Rust functions as `Except`.
-/

/-! ## ChunkType (src/chunk_type.rs) -/

/-- Byte-range test used by both `TryFrom<[u8; 4]>` and `is_valid`:
`((b >= 65) && (b <= 90)) || (b >= 97) && (b <= 122)`. -/
def isAsciiAlphaByte (b : Nat) : Bool :=
  (65 ≤ b && b ≤ 90) || (97 ≤ b && b ≤ 122)

/-- The `ChunkType` struct: a 4-byte type code (`ctype: [u8; 4]`). -/
structure ChunkType where
  t0 : Nat
  t1 : Nat
  t2 : Nat
  t3 : Nat
deriving DecidableEq, Repr

/-- The error value of `TryFrom<[u8; 4]> for ChunkType`:
the message string `"Byte value out of range"`. -/
inductive ChunkTypeByteError where
  | byteValueOutOfRange
deriving DecidableEq, Repr

/-- The error values of `FromStr for ChunkType`: the message strings
`"Character value out of range"` and `"String length incorrect size"`. -/
inductive ChunkTypeStrError where
  | characterValueOutOfRange
  | stringLengthIncorrectSize
deriving DecidableEq, Repr

/-- `impl TryFrom<[u8; 4]> for ChunkType`: accept iff every byte passes the
ASCII-letter range test. -/
def ChunkType.tryFrom (b0 b1 b2 b3 : Nat) : Except ChunkTypeByteError ChunkType :=
  if !(isAsciiAlphaByte b0 && isAsciiAlphaByte b1 && isAsciiAlphaByte b2 && isAsciiAlphaByte b3)
  then .error .byteValueOutOfRange
  else .ok ⟨b0, b1, b2, b3⟩

/-- `c.is_ascii_alphabetic()` on a character. -/
def isAsciiAlphaChar (c : Char) : Bool := isAsciiAlphaByte c.toNat

/-- Number of bytes of the UTF-8 encoding of one character (Rust `str` is
UTF-8, and `s.len()` counts bytes). -/
def charUtf8Len (c : Char) : Nat :=
  if c.toNat < 0x80 then 1
  else if c.toNat < 0x800 then 2
  else if c.toNat < 0x10000 then 3
  else 4

/-- `s.len()` of a Rust string, i.e. its UTF-8 byte count. -/
def strUtf8Len (s : List Char) : Nat := (s.map charUtf8Len).sum

/-- `impl FromStr for ChunkType`: reject if some character is not
ASCII-alphabetic, then reject if the byte length is not 4, else copy the 4
bytes (all characters are ASCII here, so the UTF-8 bytes are the code
points; the `getD` defaults are never reached). -/
def ChunkType.fromStr (s : List Char) : Except ChunkTypeStrError ChunkType :=
  if !(s.all isAsciiAlphaChar) then .error .characterValueOutOfRange
  else if strUtf8Len s ≠ 4 then .error .stringLengthIncorrectSize
  else .ok ⟨(s.map Char.toNat).getD 0 0, (s.map Char.toNat).getD 1 0,
            (s.map Char.toNat).getD 2 0, (s.map Char.toNat).getD 3 0⟩

/-- `ChunkType::bytes`. -/
def ChunkType.bytes (t : ChunkType) : List Nat := [t.t0, t.t1, t.t2, t.t3]

/-- `ChunkType::is_critical`: `(self.ctype[0] >> 5) & 0b1 == 0b0`. -/
def ChunkType.is_critical (t : ChunkType) : Bool := (t.t0 >>> 5) &&& 1 == 0

/-- `ChunkType::is_public`: `(self.ctype[1] >> 5) & 0b1 == 0b0`. -/
def ChunkType.is_public (t : ChunkType) : Bool := (t.t1 >>> 5) &&& 1 == 0

/-- `ChunkType::is_reserved_bit_valid`: `(self.ctype[2] >> 5) & 0b1 == 0b0`. -/
def ChunkType.is_reserved_bit_valid (t : ChunkType) : Bool := (t.t2 >>> 5) &&& 1 == 0

/-- `ChunkType::is_safe_to_copy`: `(self.ctype[3] >> 5) & 0b1 == 0b1`. -/
def ChunkType.is_safe_to_copy (t : ChunkType) : Bool := (t.t3 >>> 5) &&& 1 == 1

/-- `ChunkType::is_valid`: all bytes in the letter ranges and the reserved
bit clear. -/
def ChunkType.is_valid (t : ChunkType) : Bool :=
  (t.bytes.all isAsciiAlphaByte) && t.is_reserved_bit_valid

/-! ## CRC-32 (the `crc` crate's `Crc::<u32>::new(&crc::CRC_32_ISO_HDLC)`) -/

/-- The reflected CRC-32 polynomial 0xEDB88320. -/
def crcPoly : Nat := 0xEDB88320

/-- Modelled from the spec: one bit-step of the CRC-32/ISO-HDLC checksum
(the `crc` crate is outside this repository).  The register is shifted
right by one and conditionally xored with the reflected polynomial,
according to the parity of register-low-bit xor message-bit. -/
def crcBitStep (s b : Nat) : Nat :=
  if (s + b) % 2 = 1 then s / 2 ^^^ crcPoly else s / 2

/-- The 8 bits of a byte, least significant first (reflected input). -/
def byteBits (b : Nat) : List Nat := (List.range 8).map fun i => b / 2 ^ i % 2

/-- The bit stream of a message, bytes in order, bits LSB-first. -/
def msgBits (msg : List Nat) : List Nat := (msg.map byteBits).flatten

/-- Folding the CRC register over a bit stream. -/
def crcRun (s : Nat) (bits : List Nat) : Nat := bits.foldl crcBitStep s

/-- Modelled from the spec: CRC-32/ISO-HDLC (the PNG / zlib checksum):
32-bit, reflected, init 0xFFFFFFFF, xorout 0xFFFFFFFF, polynomial
0xEDB88320 in reflected form. -/
def crc32 (msg : List Nat) : Nat := crcRun 0xFFFFFFFF (msgBits msg) ^^^ 0xFFFFFFFF

/-! ## Chunk (src/chunk.rs) -/

/-- The `Chunk` struct. -/
structure Chunk where
  clength : Nat
  ctype : ChunkType
  cdata : List Nat
  ccrc : Nat
deriving DecidableEq, Repr

/-- The four distinct failure exits of `TryFrom<&[u8]> for Chunk`. -/
inductive DecodeError where
  | truncatedHeader
  | sizeMismatch
  | invalidChunkType
  | checksumMismatch
deriving DecidableEq, Repr

/-- `u32::from_be_bytes`. -/
def u32FromBe (b0 b1 b2 b3 : Nat) : Nat := ((b0 * 256 + b1) * 256 + b2) * 256 + b3

/-- `u32::to_be_bytes` (on a value `< 2^32`). -/
def u32ToBe (n : Nat) : List Nat :=
  [n / 2 ^ 24 % 256, n / 2 ^ 16 % 256, n / 2 ^ 8 % 256, n % 256]

/-- The length field: `u32::from_be_bytes([value[0], value[1], value[2], value[3]])`. -/
def readLen (value : List Nat) : Nat :=
  u32FromBe (value.getD 0 0) (value.getD 1 0) (value.getD 2 0) (value.getD 3 0)

/-- The declared checksum: big-endian u32 from the trailing 4 bytes. -/
def readCrcField (value : List Nat) : Nat :=
  u32FromBe (value.getD (value.length - 4) 0) (value.getD (value.length - 3) 0)
    (value.getD (value.length - 2) 0) (value.getD (value.length - 1) 0)

/-- `value[4..value.len() - 4]`, the bytes the checksum is computed over. -/
def crcRegion (value : List Nat) : List Nat := (value.drop 4).take (value.length - 8)

/-- `value[8..value.len() - 4]`, the payload bytes. -/
def dataRegion (value : List Nat) : List Nat := (value.drop 8).take (value.length - 12)

/-- `impl TryFrom<&[u8]> for Chunk`, exit for exit. -/
def Chunk.tryFrom (value : List Nat) : Except DecodeError Chunk :=
  if value.length < 4 then .error .truncatedHeader
  else if value.length ≠ readLen value + 12 then .error .sizeMismatch
  else
    match ChunkType.tryFrom (value.getD 4 0) (value.getD 5 0) (value.getD 6 0) (value.getD 7 0) with
    | .error _ => .error .invalidChunkType
    | .ok ctype =>
      if readCrcField value ≠ crc32 (crcRegion value) then .error .checksumMismatch
      else .ok { clength := readLen value, ctype := ctype,
                 cdata := dataRegion value, ccrc := readCrcField value }

/-- `Chunk::new`: cache the data length and the checksum of type ++ data.
(The source converts `cdata.len()` to `u32` with `unwrap`, so it is only
defined for data shorter than `2^32` bytes; theorems carry that bound.) -/
def Chunk.new (chunk_type : ChunkType) (data : List Nat) : Chunk :=
  { clength := data.length, ctype := chunk_type, cdata := data,
    ccrc := crc32 (chunk_type.bytes ++ data) }

/-- `Chunk::length`. -/
def Chunk.length (c : Chunk) : Nat := c.clength

/-- `Chunk::chunk_type`. -/
def Chunk.chunk_type (c : Chunk) : ChunkType := c.ctype

/-- `Chunk::data`. -/
def Chunk.data (c : Chunk) : List Nat := c.cdata

/-- `Chunk::crc`. -/
def Chunk.crc (c : Chunk) : Nat := c.ccrc

/-- `Chunk::as_bytes`: length BE, type bytes, data, crc BE. -/
def Chunk.as_bytes (c : Chunk) : List Nat :=
  u32ToBe c.clength ++ (ChunkType.bytes c.ctype ++ (c.cdata ++ u32ToBe c.ccrc))

/-- Result of `Chunk::data_as_string`: either a string, or the abrupt
termination of the `Err(_e) => ...` arm of the source (which calls the
panicking macro instead of returning an error). -/
inductive StringResult where
  | ok : List Char → StringResult
  | panicked : StringResult
deriving DecidableEq, Repr

/-- Modelled from the spec: the UTF-8 validity check of Rust's
`String::from_utf8` (std library, outside this repository).  Decodes a byte
list as UTF-8, rejecting truncated sequences, bad continuation bytes,
overlong encodings, surrogates and code points above 0x10FFFF. -/
def utf8Decode : List Nat → Option (List Char)
  | [] => some []
  | b0 :: rest =>
    if b0 < 0x80 then
      match utf8Decode rest with
      | some cs => some (Char.ofNat b0 :: cs)
      | none => none
    else if b0 < 0xC2 then none
    else if b0 < 0xE0 then
      match rest with
      | b1 :: rest1 =>
        if 0x80 ≤ b1 && b1 < 0xC0 then
          match utf8Decode rest1 with
          | some cs => some (Char.ofNat ((b0 - 0xC0) * 0x40 + (b1 - 0x80)) :: cs)
          | none => none
        else none
      | [] => none
    else if b0 < 0xF0 then
      match rest with
      | b1 :: b2 :: rest2 =>
        if (if b0 = 0xE0 then 0xA0 ≤ b1 && b1 < 0xC0
            else if b0 = 0xED then 0x80 ≤ b1 && b1 < 0xA0
            else 0x80 ≤ b1 && b1 < 0xC0) && (0x80 ≤ b2 && b2 < 0xC0) then
          match utf8Decode rest2 with
          | some cs =>
            some (Char.ofNat ((b0 - 0xE0) * 0x1000 + (b1 - 0x80) * 0x40 + (b2 - 0x80)) :: cs)
          | none => none
        else none
      | _ => none
    else if b0 < 0xF5 then
      match rest with
      | b1 :: b2 :: b3 :: rest3 =>
        if (if b0 = 0xF0 then 0x90 ≤ b1 && b1 < 0xC0
            else if b0 = 0xF4 then 0x80 ≤ b1 && b1 < 0x90
            else 0x80 ≤ b1 && b1 < 0xC0)
            && (0x80 ≤ b2 && b2 < 0xC0) && (0x80 ≤ b3 && b3 < 0xC0) then
          match utf8Decode rest3 with
          | some cs =>
            some (Char.ofNat ((b0 - 0xF0) * 0x40000 + (b1 - 0x80) * 0x1000
                    + (b2 - 0x80) * 0x40 + (b3 - 0x80)) :: cs)
          | none => none
        else none
      | _ => none
    else none

/-- `Chunk::data_as_string`: on valid UTF-8 return the string; the invalid
branch of the source does not return the error but terminates abruptly. -/
def Chunk.data_as_string (c : Chunk) : StringResult :=
  match utf8Decode c.cdata with
  | some s => .ok s
  | none => .panicked

/-! ## Error plumbing (src/main.rs) -/

/-- `throw_string_error` from src/main.rs: ignores its argument and builds
an error whose message is always `"Bad Header"`. -/
def throw_string_error (_s : String) : String := "Bad Header"

/-- The message carried by each `Chunk::try_from` failure: the three
failures raised directly in chunk.rs go through `throw_string_error`; the
chunk-type failure is propagated from `ChunkType::try_from` by `?`. -/
def DecodeError.message : DecodeError → String
  | .truncatedHeader => throw_string_error "Insufficient data to read size"
  | .sizeMismatch => throw_string_error "Malsized chunk"
  | .checksumMismatch => throw_string_error "Chunk does not match checksum"
  | .invalidChunkType => "Byte value out of range"

/-- A single bit flip in a byte buffer: replace byte `i` by itself xor `2^k`. -/
def flipBit (l : List Nat) (i k : Nat) : List Nat := l.set i (l.getD i 0 ^^^ 2 ^ k)

/-- The 42-byte ASCII payload used by the repository's tests:
`"This is where your secret message will be!"`. -/
def secretMessage : List Nat :=
  "This is where your secret message will be!".toList.map Char.toNat

/-! ## Arithmetic helpers -/

set_option maxRecDepth 100000

theorem u32FromBe_u32ToBe (n : Nat) (h : n < 2 ^ 32) :
    u32FromBe (n / 2 ^ 24 % 256) (n / 2 ^ 16 % 256) (n / 2 ^ 8 % 256) (n % 256) = n := by
  unfold u32FromBe
  omega

theorem u32ToBe_bytes_lt (n : Nat) : ∀ b ∈ u32ToBe n, b < 256 := by
  unfold u32ToBe
  intro b hb
  simp only [List.mem_cons, List.not_mem_nil, or_false] at hb
  rcases hb with h | h | h | h <;> omega

theorem u32FromBe_inj {a0 a1 a2 a3 b0 b1 b2 b3 : Nat}
    (ha0 : a0 < 256) (ha1 : a1 < 256) (ha2 : a2 < 256) (ha3 : a3 < 256)
    (hb0 : b0 < 256) (hb1 : b1 < 256) (hb2 : b2 < 256) (hb3 : b3 < 256)
    (hne : (a0, a1, a2, a3) ≠ (b0, b1, b2, b3)) :
    u32FromBe a0 a1 a2 a3 ≠ u32FromBe b0 b1 b2 b3 := by
  unfold u32FromBe
  intro h
  apply hne
  have : a0 = b0 ∧ a1 = b1 ∧ a2 = b2 ∧ a3 = b3 := by omega
  simp [this.1, this.2.1, this.2.2.1, this.2.2.2]

theorem xor_two_pow_ne (b k : Nat) : b ^^^ 2 ^ k ≠ b := by
  intro h
  have h2 : b ^^^ 2 ^ k = b ^^^ 0 := by simpa using h
  have := Nat.xor_right_inj.mp h2
  exact absurd this (Nat.pos_iff_ne_zero.mp (Nat.pos_pow_of_pos k (by norm_num)))

/-! ## CRC-32 register lemmas -/

theorem crcBitStep_lt {s : Nat} (b : Nat) (hs : s < 2 ^ 32) : crcBitStep s b < 2 ^ 32 := by
  unfold crcBitStep crcPoly
  split
  · exact Nat.xor_lt_two_pow (by omega) (by norm_num)
  · omega

theorem crcRun_lt {s : Nat} (bits : List Nat) (hs : s < 2 ^ 32) : crcRun s bits < 2 ^ 32 := by
  induction bits generalizing s with
  | nil => exact hs
  | cons b bs ih => exact ih (crcBitStep_lt b hs)

theorem crc32_lt (msg : List Nat) : crc32 msg < 2 ^ 32 :=
  Nat.xor_lt_two_pow (crcRun_lt _ (by norm_num)) (by norm_num)

theorem high_bit_xor_ne {a b : Nat} (ha : a < 2 ^ 31) (hb : b < 2 ^ 31) :
    a ^^^ crcPoly ≠ b := by
  intro h
  have h31 : (a ^^^ crcPoly).testBit 31 = true := by
    rw [Nat.testBit_xor, Nat.testBit_lt_two_pow ha]
    decide
  have := Nat.testBit_implies_ge h31
  rw [h] at this
  omega

theorem crcBitStep_inj {s1 s2 : Nat} (b : Nat) (h1 : s1 < 2 ^ 32) (h2 : s2 < 2 ^ 32)
    (h : crcBitStep s1 b = crcBitStep s2 b) : s1 = s2 := by
  by_cases c1 : (s1 + b) % 2 = 1 <;> by_cases c2 : (s2 + b) % 2 = 1
  · rw [crcBitStep, if_pos c1, crcBitStep, if_pos c2] at h
    have := Nat.xor_left_inj.mp h
    omega
  · rw [crcBitStep, if_pos c1, crcBitStep, if_neg c2] at h
    exact absurd h (high_bit_xor_ne (by omega) (by omega))
  · rw [crcBitStep, if_neg c1, crcBitStep, if_pos c2] at h
    exact absurd h.symm (high_bit_xor_ne (by omega) (by omega))
  · rw [crcBitStep, if_neg c1, crcBitStep, if_neg c2] at h
    omega

theorem crcBitStep_flip_ne {s : Nat} (hs : s < 2 ^ 32) {b1 b2 : Nat} (hb : b1 % 2 ≠ b2 % 2) :
    crcBitStep s b1 ≠ crcBitStep s b2 := by
  by_cases c1 : (s + b1) % 2 = 1
  · have c2 : ¬((s + b2) % 2 = 1) := by omega
    rw [crcBitStep, if_pos c1, crcBitStep, if_neg c2]
    exact high_bit_xor_ne (by omega) (by omega)
  · have c2 : (s + b2) % 2 = 1 := by omega
    rw [crcBitStep, if_neg c1, crcBitStep, if_pos c2]
    intro h
    exact absurd h.symm (high_bit_xor_ne (by omega) (by omega))

theorem crcRun_ne {s1 s2 : Nat} (bits : List Nat) (h1 : s1 < 2 ^ 32) (h2 : s2 < 2 ^ 32)
    (hne : s1 ≠ s2) : crcRun s1 bits ≠ crcRun s2 bits := by
  induction bits generalizing s1 s2 with
  | nil => exact hne
  | cons b bs ih =>
    exact ih (crcBitStep_lt b h1) (crcBitStep_lt b h2)
      (fun h => hne (crcBitStep_inj b h1 h2 h))

theorem crcRun_flip_ne (pre post : List Nat) {b1 b2 : Nat} (hb : b1 % 2 ≠ b2 % 2) :
    crcRun 0xFFFFFFFF (pre ++ b1 :: post) ≠ crcRun 0xFFFFFFFF (pre ++ b2 :: post) := by
  have hpre : crcRun 0xFFFFFFFF pre < 2 ^ 32 := crcRun_lt pre (by norm_num)
  show (pre ++ b1 :: post).foldl crcBitStep 0xFFFFFFFF ≠ (pre ++ b2 :: post).foldl crcBitStep 0xFFFFFFFF
  rw [List.foldl_append, List.foldl_append, List.foldl_cons, List.foldl_cons]
  exact crcRun_ne post (crcBitStep_lt _ hpre) (crcBitStep_lt _ hpre)
    (crcBitStep_flip_ne hpre hb)

/-! ## Single-bit sensitivity of the checksum -/

theorem byteBits_length (b : Nat) : (byteBits b).length = 8 := by
  simp [byteBits]

theorem bit_of_xor_pow_ne {b k i : Nat} (h : i ≠ k) :
    (b ^^^ 2 ^ k) / 2 ^ i % 2 = b / 2 ^ i % 2 := by
  have h3 : (b ^^^ 2 ^ k).testBit i = b.testBit i := by
    rw [Nat.testBit_xor, Nat.testBit_two_pow_of_ne (fun hh => h hh.symm), Bool.xor_false]
  rw [Nat.testBit_to_div_mod, Nat.testBit_to_div_mod] at h3
  have h4 := decide_eq_decide.mp h3
  omega

theorem bit_of_xor_pow_eq (b k : Nat) :
    (b ^^^ 2 ^ k) / 2 ^ k % 2 ≠ b / 2 ^ k % 2 := by
  have h3 : (b ^^^ 2 ^ k).testBit k = !(b.testBit k) := by
    rw [Nat.testBit_xor, Nat.testBit_two_pow_self, Bool.xor_true]
  rw [Nat.testBit_to_div_mod, Nat.testBit_to_div_mod, ← decide_not] at h3
  have h4 := decide_eq_decide.mp h3
  omega

theorem byteBits_take_eq (b k : Nat) :
    (byteBits (b ^^^ 2 ^ k)).take k = (byteBits b).take k := by
  apply List.ext_getElem
  · simp [byteBits_length]
  · intro i h1 h2
    simp only [List.length_take, byteBits_length] at h1
    simp only [List.getElem_take]
    simp only [byteBits, List.getElem_map, List.getElem_range]
    exact bit_of_xor_pow_ne (by omega)

theorem byteBits_drop_eq (b k : Nat) :
    (byteBits (b ^^^ 2 ^ k)).drop (k + 1) = (byteBits b).drop (k + 1) := by
  apply List.ext_getElem
  · simp [byteBits_length]
  · intro i h1 h2
    simp only [List.getElem_drop]
    simp only [byteBits, List.getElem_map, List.getElem_range]
    exact bit_of_xor_pow_ne (by omega)

theorem byteBits_decomp (b : Nat) {k : Nat} (hk : k < 8) :
    byteBits b = (byteBits b).take k ++ b / 2 ^ k % 2 :: (byteBits b).drop (k + 1) := by
  have hk8 : k < (byteBits b).length := by simpa [byteBits_length] using hk
  conv_lhs => rw [← List.take_append_drop k (byteBits b), List.drop_eq_getElem_cons hk8]
  simp only [byteBits, List.getElem_map, List.getElem_range]

theorem crc32_flip_byte_ne (pre suf : List Nat) (b : Nat) {k : Nat} (hk : k < 8) :
    crc32 (pre ++ (b ^^^ 2 ^ k) :: suf) ≠ crc32 (pre ++ b :: suf) := by
  have e1 : msgBits (pre ++ (b ^^^ 2 ^ k) :: suf)
      = (msgBits pre ++ (byteBits b).take k)
        ++ (b ^^^ 2 ^ k) / 2 ^ k % 2 :: ((byteBits b).drop (k + 1) ++ msgBits suf) := by
    simp only [msgBits, List.map_append, List.map_cons, List.flatten_append, List.flatten_cons]
    rw [byteBits_decomp (b ^^^ 2 ^ k) hk, byteBits_take_eq, byteBits_drop_eq]
    simp [List.append_assoc]
  have e2 : msgBits (pre ++ b :: suf)
      = (msgBits pre ++ (byteBits b).take k)
        ++ b / 2 ^ k % 2 :: ((byteBits b).drop (k + 1) ++ msgBits suf) := by
    simp only [msgBits, List.map_append, List.map_cons, List.flatten_append, List.flatten_cons]
    conv_lhs => rw [byteBits_decomp b hk]
    simp [List.append_assoc]
  intro h
  simp only [crc32] at h
  have h2 := Nat.xor_left_inj.mp h
  rw [e1, e2] at h2
  exact crcRun_flip_ne _ _ (by have := bit_of_xor_pow_eq b k; omega) h2

/-! ## Decoding a buffer in wire layout -/

theorem shape_length (a0 a1 a2 a3 t0 t1 t2 t3 c0 c1 c2 c3 : Nat) (d : List Nat) :
    ([a0, a1, a2, a3] ++ ([t0, t1, t2, t3] ++ (d ++ [c0, c1, c2, c3]))).length
      = d.length + 12 := by
  simp only [List.length_append, List.length_cons, List.length_nil]
  omega

theorem readLen_shape (a0 a1 a2 a3 : Nat) (X : List Nat) :
    readLen ([a0, a1, a2, a3] ++ X) = u32FromBe a0 a1 a2 a3 := by
  simp [readLen, List.cons_append]

theorem readCrcField_last4 (P : List Nat) (c0 c1 c2 c3 : Nat) :
    readCrcField (P ++ [c0, c1, c2, c3]) = u32FromBe c0 c1 c2 c3 := by
  have hlen : (P ++ [c0, c1, c2, c3]).length = P.length + 4 := by simp
  rw [readCrcField, hlen]
  rw [show P.length + 4 - 4 = P.length + 0 from by omega,
      show P.length + 4 - 3 = P.length + 1 from by omega,
      show P.length + 4 - 2 = P.length + 2 from by omega,
      show P.length + 4 - 1 = P.length + 3 from by omega]
  rw [List.getD_append_right P _ 0 _ (by omega), List.getD_append_right P _ 0 _ (by omega),
      List.getD_append_right P _ 0 _ (by omega), List.getD_append_right P _ 0 _ (by omega)]
  simp [Nat.add_sub_cancel_left]

theorem readCrcField_shape (a0 a1 a2 a3 t0 t1 t2 t3 c0 c1 c2 c3 : Nat) (d : List Nat) :
    readCrcField ([a0, a1, a2, a3] ++ ([t0, t1, t2, t3] ++ (d ++ [c0, c1, c2, c3])))
      = u32FromBe c0 c1 c2 c3 := by
  rw [show [a0, a1, a2, a3] ++ ([t0, t1, t2, t3] ++ (d ++ [c0, c1, c2, c3]))
        = (([a0, a1, a2, a3] ++ [t0, t1, t2, t3]) ++ d) ++ [c0, c1, c2, c3] from by
      simp [List.append_assoc]]
  exact readCrcField_last4 _ c0 c1 c2 c3

theorem crcRegion_shape (a0 a1 a2 a3 t0 t1 t2 t3 c0 c1 c2 c3 : Nat) (d : List Nat) :
    crcRegion ([a0, a1, a2, a3] ++ ([t0, t1, t2, t3] ++ (d ++ [c0, c1, c2, c3])))
      = [t0, t1, t2, t3] ++ d := by
  unfold crcRegion
  rw [shape_length]
  rw [List.drop_left' (show ([a0, a1, a2, a3] : List Nat).length = 4 from rfl)]
  rw [show d.length + 12 - 8 = 4 + d.length from by omega]
  rw [show [t0, t1, t2, t3] ++ (d ++ [c0, c1, c2, c3])
        = ([t0, t1, t2, t3] ++ d) ++ [c0, c1, c2, c3] from by simp [List.append_assoc]]
  exact List.take_left' (by simp only [List.length_append, List.length_cons, List.length_nil])

theorem dataRegion_shape (a0 a1 a2 a3 t0 t1 t2 t3 c0 c1 c2 c3 : Nat) (d : List Nat) :
    dataRegion ([a0, a1, a2, a3] ++ ([t0, t1, t2, t3] ++ (d ++ [c0, c1, c2, c3]))) = d := by
  unfold dataRegion
  rw [shape_length]
  rw [show [a0, a1, a2, a3] ++ ([t0, t1, t2, t3] ++ (d ++ [c0, c1, c2, c3]))
        = ([a0, a1, a2, a3] ++ [t0, t1, t2, t3]) ++ (d ++ [c0, c1, c2, c3]) from by
      simp [List.append_assoc]]
  rw [List.drop_left' (show (([a0, a1, a2, a3] : List Nat) ++ [t0, t1, t2, t3]).length = 8 from rfl)]
  rw [show d.length + 12 - 12 = d.length from by omega]
  exact List.take_left' rfl

theorem tryFrom_shape (a0 a1 a2 a3 t0 t1 t2 t3 c0 c1 c2 c3 : Nat) (d : List Nat) :
    Chunk.tryFrom ([a0, a1, a2, a3] ++ ([t0, t1, t2, t3] ++ (d ++ [c0, c1, c2, c3]))) =
      if u32FromBe a0 a1 a2 a3 ≠ d.length then .error .sizeMismatch
      else if !(isAsciiAlphaByte t0 && isAsciiAlphaByte t1
          && isAsciiAlphaByte t2 && isAsciiAlphaByte t3) then .error .invalidChunkType
      else if u32FromBe c0 c1 c2 c3 ≠ crc32 ([t0, t1, t2, t3] ++ d) then
        .error .checksumMismatch
      else .ok { clength := u32FromBe a0 a1 a2 a3, ctype := ⟨t0, t1, t2, t3⟩,
                 cdata := d, ccrc := u32FromBe c0 c1 c2 c3 } := by
  have h4 : ([a0, a1, a2, a3] ++ ([t0, t1, t2, t3] ++ (d ++ [c0, c1, c2, c3]))).getD 4 0 = t0 := by
    simp [List.cons_append]
  have h5 : ([a0, a1, a2, a3] ++ ([t0, t1, t2, t3] ++ (d ++ [c0, c1, c2, c3]))).getD 5 0 = t1 := by
    simp [List.cons_append]
  have h6 : ([a0, a1, a2, a3] ++ ([t0, t1, t2, t3] ++ (d ++ [c0, c1, c2, c3]))).getD 6 0 = t2 := by
    simp [List.cons_append]
  have h7 : ([a0, a1, a2, a3] ++ ([t0, t1, t2, t3] ++ (d ++ [c0, c1, c2, c3]))).getD 7 0 = t3 := by
    simp [List.cons_append]
  unfold Chunk.tryFrom ChunkType.tryFrom
  rw [shape_length, readLen_shape, readCrcField_shape, crcRegion_shape, dataRegion_shape,
    h4, h5, h6, h7]
  rw [if_neg (show ¬(d.length + 12 < 4) from by omega)]
  by_cases hsz : u32FromBe a0 a1 a2 a3 = d.length
  · rw [if_neg (show ¬(d.length + 12 ≠ u32FromBe a0 a1 a2 a3 + 12) from by omega),
        if_neg (show ¬(u32FromBe a0 a1 a2 a3 ≠ d.length) from by omega)]
    by_cases halpha : (isAsciiAlphaByte t0 && isAsciiAlphaByte t1
        && isAsciiAlphaByte t2 && isAsciiAlphaByte t3) = true
    · simp only [halpha, Bool.not_true, Bool.false_eq_true, if_false]
    · rw [Bool.not_eq_true] at halpha
      simp only [halpha, Bool.not_false, if_true]
  · rw [if_pos (show d.length + 12 ≠ u32FromBe a0 a1 a2 a3 + 12 from by omega),
        if_pos (show u32FromBe a0 a1 a2 a3 ≠ d.length from hsz)]

theorem tryFrom_shape_be (L C t0 t1 t2 t3 : Nat) (d : List Nat)
    (hL : L < 2 ^ 32) (hC : C < 2 ^ 32) :
    Chunk.tryFrom (u32ToBe L ++ ([t0, t1, t2, t3] ++ (d ++ u32ToBe C))) =
      if L ≠ d.length then .error .sizeMismatch
      else if !(isAsciiAlphaByte t0 && isAsciiAlphaByte t1
          && isAsciiAlphaByte t2 && isAsciiAlphaByte t3) then .error .invalidChunkType
      else if C ≠ crc32 ([t0, t1, t2, t3] ++ d) then .error .checksumMismatch
      else .ok { clength := L, ctype := ⟨t0, t1, t2, t3⟩, cdata := d, ccrc := C } := by
  rw [show u32ToBe L = [L / 2 ^ 24 % 256, L / 2 ^ 16 % 256, L / 2 ^ 8 % 256, L % 256] from rfl,
      show u32ToBe C = [C / 2 ^ 24 % 256, C / 2 ^ 16 % 256, C / 2 ^ 8 % 256, C % 256] from rfl,
      tryFrom_shape, u32FromBe_u32ToBe L hL, u32FromBe_u32ToBe C hC]

theorem dataRegion_length (value : List Nat) (h : value.length = readLen value + 12) :
    (dataRegion value).length = readLen value := by
  unfold dataRegion
  simp only [List.length_take, List.length_drop]
  omega

theorem tryFrom_taxonomy_all (value : List Nat) :
    (Chunk.tryFrom value = .error .truncatedHeader ↔ value.length < 4)
    ∧ (Chunk.tryFrom value = .error .sizeMismatch
        ↔ 4 ≤ value.length ∧ value.length ≠ readLen value + 12)
    ∧ (Chunk.tryFrom value = .error .invalidChunkType
        ↔ 4 ≤ value.length ∧ value.length = readLen value + 12
          ∧ ¬∃ t, ChunkType.tryFrom (value.getD 4 0) (value.getD 5 0)
              (value.getD 6 0) (value.getD 7 0) = .ok t)
    ∧ (Chunk.tryFrom value = .error .checksumMismatch
        ↔ 4 ≤ value.length ∧ value.length = readLen value + 12
          ∧ (∃ t, ChunkType.tryFrom (value.getD 4 0) (value.getD 5 0)
              (value.getD 6 0) (value.getD 7 0) = .ok t)
          ∧ readCrcField value ≠ crc32 (crcRegion value))
    ∧ ∀ c : Chunk, Chunk.tryFrom value = .ok c
        ↔ 4 ≤ value.length ∧ value.length = readLen value + 12
          ∧ (∃ t, ChunkType.tryFrom (value.getD 4 0) (value.getD 5 0)
              (value.getD 6 0) (value.getD 7 0) = .ok t
              ∧ c = { clength := readLen value, ctype := t,
                      cdata := dataRegion value, ccrc := readCrcField value })
          ∧ readCrcField value = crc32 (crcRegion value) := by
  by_cases h1 : value.length < 4
  · have hr : Chunk.tryFrom value = .error .truncatedHeader := by
      unfold Chunk.tryFrom
      rw [if_pos h1]
    refine ⟨⟨fun _ => h1, fun _ => hr⟩, ?_, ?_, ?_, fun c => ?_⟩ <;> rw [hr] <;>
      exact ⟨fun hc => by simp at hc, fun hc => absurd hc.1 (by omega)⟩
  · by_cases h2 : value.length = readLen value + 12
    · rcases hty : ChunkType.tryFrom (value.getD 4 0) (value.getD 5 0)
          (value.getD 6 0) (value.getD 7 0) with e | t
      · have hr : Chunk.tryFrom value = .error .invalidChunkType := by
          unfold Chunk.tryFrom
          rw [if_neg h1, if_neg (fun hh => hh h2), hty]
        refine ⟨?_, ?_, ?_, ?_, fun c => ?_⟩ <;> rw [hr]
        · exact ⟨fun hc => by simp at hc, fun hc => absurd hc h1⟩
        · refine ⟨fun hc => by simp at hc, ?_⟩
          rintro ⟨-, hne⟩
          exact absurd h2 hne
        · refine ⟨fun _ => ⟨by omega, h2, ?_⟩, fun _ => rfl⟩
          rintro ⟨t1, ht1⟩
          simp at ht1
        · refine ⟨fun hc => by simp at hc, ?_⟩
          rintro ⟨-, -, ⟨t1, ht1⟩, -⟩
          simp at ht1
        · refine ⟨fun hc => by simp at hc, ?_⟩
          rintro ⟨-, -, ⟨t1, ht1, -⟩, -⟩
          simp at ht1
      · by_cases h3 : readCrcField value = crc32 (crcRegion value)
        · have hr : Chunk.tryFrom value
              = .ok { clength := readLen value, ctype := t,
                      cdata := dataRegion value, ccrc := readCrcField value } := by
            unfold Chunk.tryFrom
            rw [if_neg h1, if_neg (fun hh => hh h2)]
            simp only [hty]
            rw [if_neg (fun hh => hh h3)]
          refine ⟨?_, ?_, ?_, ?_, fun c => ?_⟩ <;> rw [hr]
          · exact ⟨fun hc => by simp at hc, fun hc => absurd hc h1⟩
          · refine ⟨fun hc => by simp at hc, ?_⟩
            rintro ⟨-, hne⟩
            exact absurd h2 hne
          · refine ⟨fun hc => by simp at hc, ?_⟩
            rintro ⟨-, -, hnex⟩
            exact absurd ⟨t, rfl⟩ hnex
          · refine ⟨fun hc => by simp at hc, ?_⟩
            rintro ⟨-, -, -, hcrc⟩
            exact absurd h3 hcrc
          · constructor
            · intro hoc
              injection hoc with hcc
              exact ⟨by omega, h2, ⟨t, rfl, hcc.symm⟩, h3⟩
            · rintro ⟨-, -, ⟨t2, hteq, rfl⟩, -⟩
              injection hteq with hts
              rw [← hts]
        · have hr : Chunk.tryFrom value = .error .checksumMismatch := by
            unfold Chunk.tryFrom
            rw [if_neg h1, if_neg (fun hh => hh h2)]
            simp only [hty]
            rw [if_pos h3]
          refine ⟨?_, ?_, ?_, ?_, fun c => ?_⟩ <;> rw [hr]
          · exact ⟨fun hc => by simp at hc, fun hc => absurd hc h1⟩
          · refine ⟨fun hc => by simp at hc, ?_⟩
            rintro ⟨-, hne⟩
            exact absurd h2 hne
          · refine ⟨fun hc => by simp at hc, ?_⟩
            rintro ⟨-, -, hnex⟩
            exact absurd ⟨t, rfl⟩ hnex
          · exact ⟨fun _ => ⟨by omega, h2, ⟨t, rfl⟩, h3⟩, fun _ => rfl⟩
          · refine ⟨fun hc => by simp at hc, ?_⟩
            rintro ⟨-, -, -, hcrc⟩
            exact absurd hcrc h3
    · have hr : Chunk.tryFrom value = .error .sizeMismatch := by
        unfold Chunk.tryFrom
        rw [if_neg h1, if_pos h2]
      refine ⟨?_, ?_, ?_, ?_, fun c => ?_⟩ <;> rw [hr]
      · exact ⟨fun hc => by simp at hc, fun hc => absurd hc h1⟩
      · exact ⟨fun _ => ⟨by omega, h2⟩, fun _ => rfl⟩
      · refine ⟨fun hc => by simp at hc, ?_⟩
        rintro ⟨-, heq, -⟩
        exact absurd heq h2
      · refine ⟨fun hc => by simp at hc, ?_⟩
        rintro ⟨-, heq, -, -⟩
        exact absurd heq h2
      · refine ⟨fun hc => by simp at hc, ?_⟩
        rintro ⟨-, heq, -, -⟩
        exact absurd heq h2

/-! ## Decoding a buffer with one bit flipped -/

theorem u32FromBe_ne_pos0 {x y : Nat} (a1 a2 a3 : Nat) (h : x ≠ y) :
    u32FromBe x a1 a2 a3 ≠ u32FromBe y a1 a2 a3 := by
  unfold u32FromBe
  intro hc
  exact h (by omega)

theorem u32FromBe_ne_pos1 {x y : Nat} (a0 a2 a3 : Nat) (h : x ≠ y) :
    u32FromBe a0 x a2 a3 ≠ u32FromBe a0 y a2 a3 := by
  unfold u32FromBe
  intro hc
  exact h (by omega)

theorem u32FromBe_ne_pos2 {x y : Nat} (a0 a1 a3 : Nat) (h : x ≠ y) :
    u32FromBe a0 a1 x a3 ≠ u32FromBe a0 a1 y a3 := by
  unfold u32FromBe
  intro hc
  exact h (by omega)

theorem u32FromBe_ne_pos3 {x y : Nat} (a0 a1 a2 : Nat) (h : x ≠ y) :
    u32FromBe a0 a1 a2 x ≠ u32FromBe a0 a1 a2 y := by
  unfold u32FromBe
  intro hc
  exact h (by omega)

theorem list_getD_decomp {d : List Nat} {j : Nat} (hj : j < d.length) :
    d = d.take j ++ d.getD j 0 :: d.drop (j + 1) := by
  conv_lhs => rw [← List.take_append_drop j d, List.drop_eq_getElem_cons hj]
  rw [List.getD_eq_getElem]

theorem tryFrom_shape_flip_len (a0 a1 a2 a3 t0 t1 t2 t3 c0 c1 c2 c3 : Nat) (d : List Nat)
    {i k : Nat} (hi : i < 4) (hsz : u32FromBe a0 a1 a2 a3 = d.length) :
    Chunk.tryFrom (flipBit ([a0, a1, a2, a3]
        ++ ([t0, t1, t2, t3] ++ (d ++ [c0, c1, c2, c3]))) i k)
      = .error .sizeMismatch := by
  unfold flipBit
  rw [List.set_append_left _ _ (by simp; omega), List.getD_append _ _ _ _ (by simp; omega)]
  interval_cases i
  · conv_lhs => rw [show ([a0, a1, a2, a3] : List Nat).set 0
        ([a0, a1, a2, a3].getD 0 0 ^^^ 2 ^ k) = [a0 ^^^ 2 ^ k, a1, a2, a3] from rfl]
    rw [tryFrom_shape]
    rw [if_pos (fun hc => u32FromBe_ne_pos0 a1 a2 a3 (xor_two_pow_ne a0 k) (hc.trans hsz.symm))]
  · conv_lhs => rw [show ([a0, a1, a2, a3] : List Nat).set 1
        ([a0, a1, a2, a3].getD 1 0 ^^^ 2 ^ k) = [a0, a1 ^^^ 2 ^ k, a2, a3] from rfl]
    rw [tryFrom_shape]
    rw [if_pos (fun hc => u32FromBe_ne_pos1 a0 a2 a3 (xor_two_pow_ne a1 k) (hc.trans hsz.symm))]
  · conv_lhs => rw [show ([a0, a1, a2, a3] : List Nat).set 2
        ([a0, a1, a2, a3].getD 2 0 ^^^ 2 ^ k) = [a0, a1, a2 ^^^ 2 ^ k, a3] from rfl]
    rw [tryFrom_shape]
    rw [if_pos (fun hc => u32FromBe_ne_pos2 a0 a1 a3 (xor_two_pow_ne a2 k) (hc.trans hsz.symm))]
  · conv_lhs => rw [show ([a0, a1, a2, a3] : List Nat).set 3
        ([a0, a1, a2, a3].getD 3 0 ^^^ 2 ^ k) = [a0, a1, a2, a3 ^^^ 2 ^ k] from rfl]
    rw [tryFrom_shape]
    rw [if_pos (fun hc => u32FromBe_ne_pos3 a0 a1 a2 (xor_two_pow_ne a3 k) (hc.trans hsz.symm))]

theorem tryFrom_shape_flip_type (a0 a1 a2 a3 t0 t1 t2 t3 c0 c1 c2 c3 : Nat) (d : List Nat)
    {i k : Nat} (hi4 : 4 ≤ i) (hi8 : i < 8) (hk : k < 8)
    (hsz : u32FromBe a0 a1 a2 a3 = d.length)
    (hc : u32FromBe c0 c1 c2 c3 = crc32 ([t0, t1, t2, t3] ++ d)) :
    Chunk.tryFrom (flipBit ([a0, a1, a2, a3]
        ++ ([t0, t1, t2, t3] ++ (d ++ [c0, c1, c2, c3]))) i k)
      = .error .invalidChunkType
    ∨ Chunk.tryFrom (flipBit ([a0, a1, a2, a3]
        ++ ([t0, t1, t2, t3] ++ (d ++ [c0, c1, c2, c3]))) i k)
      = .error .checksumMismatch := by
  unfold flipBit
  rw [List.set_append_right _ _ (by simp; omega),
      List.getD_append_right _ _ _ _ (by simp; omega)]
  rw [show ([a0, a1, a2, a3] : List Nat).length = 4 from rfl]
  rw [List.set_append_left _ _ (by simp; omega), List.getD_append _ _ _ _ (by simp; omega)]
  interval_cases i
  · rw [show (4 : Nat) - 4 = 0 from rfl,
      show ([t0, t1, t2, t3] : List Nat).set 0 ([t0, t1, t2, t3].getD 0 0 ^^^ 2 ^ k)
        = [t0 ^^^ 2 ^ k, t1, t2, t3] from rfl]
    rw [tryFrom_shape, if_neg (fun hh => hh hsz)]
    by_cases hB : (isAsciiAlphaByte (t0 ^^^ 2 ^ k) && isAsciiAlphaByte t1
        && isAsciiAlphaByte t2 && isAsciiAlphaByte t3) = true
    · refine Or.inr ?_
      have hcrcne : u32FromBe c0 c1 c2 c3 ≠ crc32 ([t0 ^^^ 2 ^ k, t1, t2, t3] ++ d) := by
        rw [hc]
        exact (crc32_flip_byte_ne [] (t1 :: t2 :: t3 :: d) t0 hk).symm
      rw [if_neg (by simp [hB]), if_pos hcrcne]
    · refine Or.inl ?_
      rw [Bool.not_eq_true] at hB
      rw [if_pos (by simp [hB])]
  · rw [show (5 : Nat) - 4 = 1 from rfl,
      show ([t0, t1, t2, t3] : List Nat).set 1 ([t0, t1, t2, t3].getD 1 0 ^^^ 2 ^ k)
        = [t0, t1 ^^^ 2 ^ k, t2, t3] from rfl]
    rw [tryFrom_shape, if_neg (fun hh => hh hsz)]
    by_cases hB : (isAsciiAlphaByte t0 && isAsciiAlphaByte (t1 ^^^ 2 ^ k)
        && isAsciiAlphaByte t2 && isAsciiAlphaByte t3) = true
    · refine Or.inr ?_
      have hcrcne : u32FromBe c0 c1 c2 c3 ≠ crc32 ([t0, t1 ^^^ 2 ^ k, t2, t3] ++ d) := by
        rw [hc]
        exact (crc32_flip_byte_ne [t0] (t2 :: t3 :: d) t1 hk).symm
      rw [if_neg (by simp [hB]), if_pos hcrcne]
    · refine Or.inl ?_
      rw [Bool.not_eq_true] at hB
      rw [if_pos (by simp [hB])]
  · rw [show (6 : Nat) - 4 = 2 from rfl,
      show ([t0, t1, t2, t3] : List Nat).set 2 ([t0, t1, t2, t3].getD 2 0 ^^^ 2 ^ k)
        = [t0, t1, t2 ^^^ 2 ^ k, t3] from rfl]
    rw [tryFrom_shape, if_neg (fun hh => hh hsz)]
    by_cases hB : (isAsciiAlphaByte t0 && isAsciiAlphaByte t1
        && isAsciiAlphaByte (t2 ^^^ 2 ^ k) && isAsciiAlphaByte t3) = true
    · refine Or.inr ?_
      have hcrcne : u32FromBe c0 c1 c2 c3 ≠ crc32 ([t0, t1, t2 ^^^ 2 ^ k, t3] ++ d) := by
        rw [hc]
        exact (crc32_flip_byte_ne [t0, t1] (t3 :: d) t2 hk).symm
      rw [if_neg (by simp [hB]), if_pos hcrcne]
    · refine Or.inl ?_
      rw [Bool.not_eq_true] at hB
      rw [if_pos (by simp [hB])]
  · rw [show (7 : Nat) - 4 = 3 from rfl,
      show ([t0, t1, t2, t3] : List Nat).set 3 ([t0, t1, t2, t3].getD 3 0 ^^^ 2 ^ k)
        = [t0, t1, t2, t3 ^^^ 2 ^ k] from rfl]
    rw [tryFrom_shape, if_neg (fun hh => hh hsz)]
    by_cases hB : (isAsciiAlphaByte t0 && isAsciiAlphaByte t1
        && isAsciiAlphaByte t2 && isAsciiAlphaByte (t3 ^^^ 2 ^ k)) = true
    · refine Or.inr ?_
      have hcrcne : u32FromBe c0 c1 c2 c3 ≠ crc32 ([t0, t1, t2, t3 ^^^ 2 ^ k] ++ d) := by
        rw [hc]
        exact (crc32_flip_byte_ne [t0, t1, t2] d t3 hk).symm
      rw [if_neg (by simp [hB]), if_pos hcrcne]
    · refine Or.inl ?_
      rw [Bool.not_eq_true] at hB
      rw [if_pos (by simp [hB])]

theorem tryFrom_shape_flip_data (a0 a1 a2 a3 t0 t1 t2 t3 c0 c1 c2 c3 : Nat) (d : List Nat)
    {i k : Nat} (hi8 : 8 ≤ i) (hiL : i < 8 + d.length) (hk : k < 8)
    (hsz : u32FromBe a0 a1 a2 a3 = d.length)
    (halpha : (isAsciiAlphaByte t0 && isAsciiAlphaByte t1
        && isAsciiAlphaByte t2 && isAsciiAlphaByte t3) = true)
    (hc : u32FromBe c0 c1 c2 c3 = crc32 ([t0, t1, t2, t3] ++ d)) :
    Chunk.tryFrom (flipBit ([a0, a1, a2, a3]
        ++ ([t0, t1, t2, t3] ++ (d ++ [c0, c1, c2, c3]))) i k)
      = .error .checksumMismatch := by
  unfold flipBit
  rw [List.set_append_right _ _ (by simp; omega),
      List.getD_append_right _ _ _ _ (by simp; omega)]
  rw [show ([a0, a1, a2, a3] : List Nat).length = 4 from rfl]
  rw [List.set_append_right _ _ (by simp; omega),
      List.getD_append_right _ _ _ _ (by simp; omega)]
  rw [show ([t0, t1, t2, t3] : List Nat).length = 4 from rfl]
  rw [List.set_append_left _ _ (by omega), List.getD_append _ _ _ _ (by omega)]
  obtain ⟨j, hj, rfl⟩ : ∃ j, j < d.length ∧ i = j + 8 := ⟨i - 8, by omega, by omega⟩
  rw [show j + 8 - 4 - 4 = j from by omega]
  rw [List.set_eq_take_cons_drop _ hj]
  rw [tryFrom_shape]
  have hlset : (d.take j ++ (d.getD j 0 ^^^ 2 ^ k) :: d.drop (j + 1)).length = d.length := by
    simp only [List.length_append, List.length_cons, List.length_take, List.length_drop]
    omega
  rw [if_neg (fun hh => hh (hsz.trans hlset.symm))]
  rw [if_neg (by simp [halpha])]
  have hcrcne : u32FromBe c0 c1 c2 c3
      ≠ crc32 ([t0, t1, t2, t3] ++ (d.take j ++ (d.getD j 0 ^^^ 2 ^ k) :: d.drop (j + 1))) := by
    rw [hc]
    have hs := crc32_flip_byte_ne ([t0, t1, t2, t3] ++ d.take j) (d.drop (j + 1))
      (d.getD j 0) hk
    rw [List.append_assoc, List.append_assoc] at hs
    rw [← list_getD_decomp hj] at hs
    exact hs.symm
  rw [if_pos hcrcne]

/-! ## Claim theorems -/

theorem strUtf8Len_of_alpha {s : List Char} (h : s.all isAsciiAlphaChar = true) :
    strUtf8Len s = s.length := by
  induction s with
  | nil => rfl
  | cons c cs ih =>
    rw [List.all_cons, Bool.and_eq_true] at h
    have hc : charUtf8Len c = 1 := by
      have hlt : c.toNat < 0x80 := by
        have h0 := h.1
        unfold isAsciiAlphaChar isAsciiAlphaByte at h0
        simp only [Bool.or_eq_true, Bool.and_eq_true, decide_eq_true_eq] at h0
        omega
      unfold charUtf8Len
      rw [if_pos hlt]
    rw [strUtf8Len, List.map_cons, List.sum_cons, hc]
    show 1 + strUtf8Len cs = (c :: cs).length
    rw [ih h.2, List.length_cons]
    omega

/-- Claim C1: for every Chunk built by `Chunk::new` from a constructible
ChunkType (constructible values always have ASCII-alphabetic bytes) and a
byte buffer whose length fits in 32 bits, decoding the byte sequence
produced by `Chunk::as_bytes` succeeds and yields a Chunk equal to the
original in length, type bytes, data, and crc. -/
theorem chunk_roundtrip (t : ChunkType) (data : List Nat)
    (ht : (ChunkType.bytes t).all isAsciiAlphaByte = true)
    (hd : ∀ b ∈ data, b < 256) (hlen : data.length < 2 ^ 32) :
    Chunk.tryFrom (Chunk.new t data).as_bytes = .ok (Chunk.new t data) := by
  obtain ⟨t0, t1, t2, t3⟩ := t
  simp only [ChunkType.bytes, List.all_cons, List.all_nil, Bool.and_true,
    Bool.and_eq_true] at ht
  have halpha : (isAsciiAlphaByte t0 && isAsciiAlphaByte t1 && isAsciiAlphaByte t2
      && isAsciiAlphaByte t3) = true := by
    simp [ht.1, ht.2.1, ht.2.2.1, ht.2.2.2]
  have hb : (Chunk.new ⟨t0, t1, t2, t3⟩ data).as_bytes
      = u32ToBe data.length ++ ([t0, t1, t2, t3]
          ++ (data ++ u32ToBe (crc32 ([t0, t1, t2, t3] ++ data)))) := rfl
  rw [hb, tryFrom_shape_be _ _ _ _ _ _ _ hlen (crc32_lt _)]
  rw [if_neg (fun hh => hh rfl), if_neg (by simp [halpha]), if_neg (fun hh => hh rfl)]
  rfl

/-- Witness for C1 at a concrete chunk ("RuSt", one data byte). -/
theorem chunk_roundtrip_witness :
    Chunk.tryFrom (Chunk.new ⟨82, 117, 83, 116⟩ [7]).as_bytes
      = .ok (Chunk.new ⟨82, 117, 83, 116⟩ [7]) :=
  chunk_roundtrip ⟨82, 117, 83, 116⟩ [7] (by decide) (by decide) (by decide)

/-- Claim C2 counterexample: the byte constructor accepts "Rust"
([82, 117, 115, 116]) although the reserved bit (bit 5 of byte index 2) is
set, and the result reports `is_valid() == false`; so "succeeds only if the
reserved bit is 0" fails on the code. -/
theorem chunkType_tryFrom_counterexample :
    ChunkType.tryFrom 82 117 115 116 = .ok ⟨82, 117, 115, 116⟩
    ∧ Nat.testBit 115 5 = true
    ∧ ChunkType.is_valid ⟨82, 117, 115, 116⟩ = false := by
  refine ⟨rfl, by decide, by decide⟩

/-- Claim C2 (amended): the byte constructor succeeds iff all 4 bytes are
ASCII-alphabetic; it does not check the reserved bit, so every ChunkType it
returns has alphabetic bytes and its `is_valid()` equals its
`is_reserved_bit_valid()` (which may be false). -/
theorem chunkType_tryFrom_alpha (b0 b1 b2 b3 : Nat) :
    ((∃ t, ChunkType.tryFrom b0 b1 b2 b3 = .ok t)
      ↔ (isAsciiAlphaByte b0 && isAsciiAlphaByte b1 && isAsciiAlphaByte b2
          && isAsciiAlphaByte b3) = true)
    ∧ ∀ t, ChunkType.tryFrom b0 b1 b2 b3 = .ok t →
        (ChunkType.bytes t).all isAsciiAlphaByte = true
        ∧ t.is_valid = t.is_reserved_bit_valid := by
  by_cases h : (isAsciiAlphaByte b0 && isAsciiAlphaByte b1 && isAsciiAlphaByte b2
      && isAsciiAlphaByte b3) = true
  · have hok : ChunkType.tryFrom b0 b1 b2 b3 = .ok ⟨b0, b1, b2, b3⟩ := by
      unfold ChunkType.tryFrom
      rw [if_neg (by simp [h])]
    have hcomp := h
    simp only [Bool.and_eq_true] at hcomp
    have hall : (ChunkType.bytes ⟨b0, b1, b2, b3⟩).all isAsciiAlphaByte = true := by
      simp only [ChunkType.bytes, List.all_cons, List.all_nil, Bool.and_true]
      simp [hcomp.1.1.1, hcomp.1.1.2, hcomp.1.2, hcomp.2]
    refine ⟨⟨fun _ => h, fun _ => ⟨⟨b0, b1, b2, b3⟩, hok⟩⟩, ?_⟩
    intro t hokt
    rw [hok] at hokt
    injection hokt with he
    subst he
    refine ⟨hall, ?_⟩
    rw [ChunkType.is_valid, hall, Bool.true_and]
  · have herr : ChunkType.tryFrom b0 b1 b2 b3 = .error .byteValueOutOfRange := by
      unfold ChunkType.tryFrom
      have hf : (isAsciiAlphaByte b0 && isAsciiAlphaByte b1 && isAsciiAlphaByte b2
          && isAsciiAlphaByte b3) = false := by
        cases hb : (isAsciiAlphaByte b0 && isAsciiAlphaByte b1 && isAsciiAlphaByte b2
            && isAsciiAlphaByte b3) with
        | false => rfl
        | true => exact absurd hb h
      rw [if_pos (by simp [hf])]
    refine ⟨⟨?_, fun hh => absurd hh h⟩, ?_⟩
    · rintro ⟨t, ht⟩
      rw [herr] at ht
      simp at ht
    · intro t ht
      rw [herr] at ht
      simp at ht

/-- Witness for C2 at the concrete bytes "RuSt". -/
theorem chunkType_tryFrom_alpha_witness :
    (∃ t, ChunkType.tryFrom 82 117 83 116 = .ok t)
    ∧ ChunkType.is_valid ⟨82, 117, 83, 116⟩
        = ChunkType.is_reserved_bit_valid ⟨82, 117, 83, 116⟩ := by
  refine ⟨(chunkType_tryFrom_alpha 82 117 83 116).1.mpr (by decide), ?_⟩
  exact ((chunkType_tryFrom_alpha 82 117 83 116).2 ⟨82, 117, 83, 116⟩ rfl).2

/-- Claim C3: the decode error taxonomy, exit for exit: TruncatedHeader iff
fewer than 4 bytes; else SizeMismatch iff the total length is not L + 12;
else InvalidChunkType iff bytes 4..8 fail the ChunkType byte constructor;
else ChecksumMismatch iff the declared trailing crc differs from the CRC-32
of bytes [4, len-4); else success with the read fields. -/
theorem chunk_tryFrom_taxonomy (value : List Nat) :
    (Chunk.tryFrom value = .error .truncatedHeader ↔ value.length < 4)
    ∧ (Chunk.tryFrom value = .error .sizeMismatch
        ↔ 4 ≤ value.length ∧ value.length ≠ readLen value + 12)
    ∧ (Chunk.tryFrom value = .error .invalidChunkType
        ↔ 4 ≤ value.length ∧ value.length = readLen value + 12
          ∧ ¬∃ t, ChunkType.tryFrom (value.getD 4 0) (value.getD 5 0)
              (value.getD 6 0) (value.getD 7 0) = .ok t)
    ∧ (Chunk.tryFrom value = .error .checksumMismatch
        ↔ 4 ≤ value.length ∧ value.length = readLen value + 12
          ∧ (∃ t, ChunkType.tryFrom (value.getD 4 0) (value.getD 5 0)
              (value.getD 6 0) (value.getD 7 0) = .ok t)
          ∧ readCrcField value ≠ crc32 (crcRegion value))
    ∧ ∀ c : Chunk, Chunk.tryFrom value = .ok c
        ↔ 4 ≤ value.length ∧ value.length = readLen value + 12
          ∧ (∃ t, ChunkType.tryFrom (value.getD 4 0) (value.getD 5 0)
              (value.getD 6 0) (value.getD 7 0) = .ok t
              ∧ c = { clength := readLen value, ctype := t,
                      cdata := dataRegion value, ccrc := readCrcField value })
          ∧ readCrcField value = crc32 (crcRegion value) :=
  tryFrom_taxonomy_all value

/-- Claim C4: on a valid-UTF-8 payload `data_as_string` returns the payload
as a string; on an invalid payload the source's error arm does not return
an InvalidUtf8 error but invokes the panicking macro, so the decode-side
accessor can terminate the process abruptly (the failing input is the
1-byte payload [255]). -/
theorem data_as_string_behavior :
    (Chunk.new ⟨82, 117, 83, 116⟩ [104, 105]).data_as_string = .ok ['h', 'i']
    ∧ (Chunk.new ⟨82, 117, 83, 116⟩ [255]).data_as_string = .panicked := by
  refine ⟨by decide, by decide⟩

/-- Claim C5 counterexample: flipping bit 7 of byte index 4 (the first type
byte) of an encoded chunk makes that byte non-alphabetic, so decode fails
with InvalidChunkType — not ChecksumMismatch as the claim states. -/
theorem chunk_flip_counterexample :
    Chunk.tryFrom (flipBit (Chunk.new ⟨82, 117, 83, 116⟩ []).as_bytes 4 7)
      = .error .invalidChunkType
    ∧ Chunk.tryFrom (flipBit (Chunk.new ⟨82, 117, 83, 116⟩ []).as_bytes 4 7)
      ≠ .error .checksumMismatch := by
  have h0 : Chunk.tryFrom (flipBit (Chunk.new ⟨82, 117, 83, 116⟩ ([] : List Nat)).as_bytes 4 7)
      = .error .invalidChunkType := rfl
  refine ⟨h0, fun h => ?_⟩
  rw [h0] at h
  exact DecodeError.noConfusion (Except.error.inj h)

/-- Claim C5 (amended): for a chunk built by the direct constructor, a
single-bit flip in the type region makes decode fail with InvalidChunkType
(when the flipped byte leaves the letter ranges) or ChecksumMismatch; a flip
in the data region always fails with ChecksumMismatch; a flip solely in the
declared-length field fails with SizeMismatch or ChecksumMismatch. -/
theorem chunk_flip_bit_sensitivity (t : ChunkType) (data : List Nat)
    (ht : (ChunkType.bytes t).all isAsciiAlphaByte = true)
    (hd : ∀ b ∈ data, b < 256) (hlen : data.length < 2 ^ 32)
    (i k : Nat) (hk : k < 8) :
    (4 ≤ i → i < 8 →
      Chunk.tryFrom (flipBit (Chunk.new t data).as_bytes i k) = .error .invalidChunkType
        ∨ Chunk.tryFrom (flipBit (Chunk.new t data).as_bytes i k)
            = .error .checksumMismatch)
    ∧ (8 ≤ i → i < 8 + data.length →
        Chunk.tryFrom (flipBit (Chunk.new t data).as_bytes i k)
          = .error .checksumMismatch)
    ∧ (i < 4 →
        Chunk.tryFrom (flipBit (Chunk.new t data).as_bytes i k) = .error .sizeMismatch
          ∨ Chunk.tryFrom (flipBit (Chunk.new t data).as_bytes i k)
              = .error .checksumMismatch) := by
  obtain ⟨t0, t1, t2, t3⟩ := t
  simp only [ChunkType.bytes, List.all_cons, List.all_nil, Bool.and_true,
    Bool.and_eq_true] at ht
  have halpha : (isAsciiAlphaByte t0 && isAsciiAlphaByte t1 && isAsciiAlphaByte t2
      && isAsciiAlphaByte t3) = true := by
    simp [ht.1, ht.2.1, ht.2.2.1, ht.2.2.2]
  have hA : (Chunk.new ⟨t0, t1, t2, t3⟩ data).as_bytes
      = [data.length / 2 ^ 24 % 256, data.length / 2 ^ 16 % 256,
         data.length / 2 ^ 8 % 256, data.length % 256]
        ++ ([t0, t1, t2, t3] ++ (data
          ++ [crc32 ([t0, t1, t2, t3] ++ data) / 2 ^ 24 % 256,
              crc32 ([t0, t1, t2, t3] ++ data) / 2 ^ 16 % 256,
              crc32 ([t0, t1, t2, t3] ++ data) / 2 ^ 8 % 256,
              crc32 ([t0, t1, t2, t3] ++ data) % 256])) := rfl
  have hsz : u32FromBe (data.length / 2 ^ 24 % 256) (data.length / 2 ^ 16 % 256)
      (data.length / 2 ^ 8 % 256) (data.length % 256) = data.length :=
    u32FromBe_u32ToBe data.length hlen
  have hcv : u32FromBe (crc32 ([t0, t1, t2, t3] ++ data) / 2 ^ 24 % 256)
      (crc32 ([t0, t1, t2, t3] ++ data) / 2 ^ 16 % 256)
      (crc32 ([t0, t1, t2, t3] ++ data) / 2 ^ 8 % 256)
      (crc32 ([t0, t1, t2, t3] ++ data) % 256) = crc32 ([t0, t1, t2, t3] ++ data) :=
    u32FromBe_u32ToBe _ (crc32_lt _)
  refine ⟨fun hi4 hi8 => ?_, fun hi8 hiL => ?_, fun hi => ?_⟩
  · rw [hA]
    exact tryFrom_shape_flip_type _ _ _ _ t0 t1 t2 t3 _ _ _ _ data hi4 hi8 hk hsz hcv
  · rw [hA]
    exact tryFrom_shape_flip_data _ _ _ _ t0 t1 t2 t3 _ _ _ _ data hi8 hiL hk hsz halpha hcv
  · rw [hA]
    exact Or.inl (tryFrom_shape_flip_len _ _ _ _ t0 t1 t2 t3 _ _ _ _ data hi hsz)

/-- Witness for C5: flipping bit 0 of data byte 8 of a concrete chunk gives
ChecksumMismatch. -/
theorem chunk_flip_bit_sensitivity_witness :
    Chunk.tryFrom (flipBit (Chunk.new ⟨82, 117, 83, 116⟩ [65]).as_bytes 8 0)
      = .error .checksumMismatch :=
  ((chunk_flip_bit_sensitivity ⟨82, 117, 83, 116⟩ [65] (by decide) (by decide) (by decide)
      8 0 (by decide)).2.1) (by decide) (by decide)

/-- Claim C6: the Chunk built by `Chunk::new` from "RuSt" and the 42-byte
test payload has `length() == 42` and `crc() == 2882656334`, the
CRC-32/ISO-HDLC checksum of the type bytes concatenated with the payload. -/
theorem chunk_new_rust_scenario :
    Chunk.length (Chunk.new ⟨82, 117, 83, 116⟩ secretMessage) = 42
    ∧ Chunk.crc (Chunk.new ⟨82, 117, 83, 116⟩ secretMessage) = 2882656334
    ∧ Chunk.crc (Chunk.new ⟨82, 117, 83, 116⟩ secretMessage)
        = crc32 (ChunkType.bytes ⟨82, 117, 83, 116⟩ ++ secretMessage) := by
  refine ⟨by decide, by decide, rfl⟩

theorem fromStr_ok_iff (s : List Char) :
    (∃ t, ChunkType.fromStr s = .ok t)
      ↔ s.length = 4 ∧ s.all isAsciiAlphaChar = true := by
  unfold ChunkType.fromStr
  cases hall : s.all isAsciiAlphaChar with
  | false =>
    rw [if_pos (by simp)]
    constructor
    · rintro ⟨t, ht⟩
      simp at ht
    · rintro ⟨-, h1⟩
      simp at h1
  | true =>
    rw [if_neg (by simp)]
    have hsl := strUtf8Len_of_alpha hall
    by_cases h4 : s.length = 4
    · rw [if_neg (fun hh => hh (by rw [hsl, h4]))]
      exact ⟨fun _ => ⟨h4, rfl⟩, fun _ => ⟨_, rfl⟩⟩
    · rw [if_pos (by rw [hsl]; exact h4)]
      constructor
      · rintro ⟨t, ht⟩
        simp at ht
      · rintro ⟨h4c, -⟩
        exact absurd h4c h4

theorem fromStr_char_err_iff (s : List Char) :
    ChunkType.fromStr s = .error .characterValueOutOfRange
      ↔ s.all isAsciiAlphaChar = false := by
  unfold ChunkType.fromStr
  cases hall : s.all isAsciiAlphaChar with
  | false =>
    rw [if_pos (by simp)]
    simp
  | true =>
    rw [if_neg (by simp)]
    constructor
    · intro hc
      split at hc <;> simp at hc
    · intro hf
      simp at hf

theorem fromStr_len_err_iff (s : List Char) :
    ChunkType.fromStr s = .error .stringLengthIncorrectSize
      ↔ s.all isAsciiAlphaChar = true ∧ s.length ≠ 4 := by
  unfold ChunkType.fromStr
  cases hall : s.all isAsciiAlphaChar with
  | false =>
    rw [if_pos (by simp)]
    constructor
    · intro hc
      simp at hc
    · rintro ⟨h1, -⟩
      simp at h1
  | true =>
    rw [if_neg (by simp)]
    have hsl := strUtf8Len_of_alpha hall
    by_cases h4 : s.length = 4
    · rw [if_neg (fun hh => hh (by rw [hsl, h4]))]
      constructor
      · intro hc
        simp at hc
      · rintro ⟨-, hne⟩
        exact absurd h4 hne
    · rw [if_pos (by rw [hsl]; exact h4)]
      exact ⟨fun _ => ⟨rfl, h4⟩, fun _ => rfl⟩

/-- Claim C7: the string constructor succeeds iff the string has exactly 4
characters, all ASCII-alphabetic; it never checks the reserved bit and
reports the two failure kinds distinctly; "Rust" constructs successfully
yet is not `is_valid`, and "Ru1t" fails with the InvalidCharacter kind. -/
theorem chunkType_fromStr_spec (s : List Char) :
    ((∃ t, ChunkType.fromStr s = .ok t)
      ↔ s.length = 4 ∧ s.all isAsciiAlphaChar = true)
    ∧ (ChunkType.fromStr s = .error .characterValueOutOfRange
        ↔ s.all isAsciiAlphaChar = false)
    ∧ (ChunkType.fromStr s = .error .stringLengthIncorrectSize
        ↔ s.all isAsciiAlphaChar = true ∧ s.length ≠ 4)
    ∧ ChunkTypeStrError.characterValueOutOfRange ≠ ChunkTypeStrError.stringLengthIncorrectSize
    ∧ (∃ t, ChunkType.fromStr "Rust".toList = .ok t ∧ t.is_valid = false)
    ∧ ChunkType.fromStr "Ru1t".toList = .error .characterValueOutOfRange :=
  ⟨fromStr_ok_iff s, fromStr_char_err_iff s, fromStr_len_err_iff s, by decide,
   ⟨⟨82, 117, 115, 116⟩, rfl, by decide⟩, rfl⟩

theorem tryFrom_ok_fields {value : List Nat} {c : Chunk}
    (h : Chunk.tryFrom value = .ok c) :
    c.clength = readLen value ∧ c.cdata = dataRegion value
    ∧ value.length = readLen value + 12 := by
  unfold Chunk.tryFrom at h
  by_cases h1 : value.length < 4
  · rw [if_pos h1] at h
    simp at h
  · rw [if_neg h1] at h
    by_cases h2 : value.length ≠ readLen value + 12
    · rw [if_pos h2] at h
      simp at h
    · rw [if_neg h2] at h
      rcases hty : ChunkType.tryFrom (value.getD 4 0) (value.getD 5 0)
          (value.getD 6 0) (value.getD 7 0) with e | t
      · simp only [hty] at h
        simp at h
      · simp only [hty] at h
        by_cases h3 : readCrcField value ≠ crc32 (crcRegion value)
        · rw [if_pos h3] at h
          simp at h
        · rw [if_neg h3] at h
          injection h with he
          rw [← he]
          exact ⟨rfl, rfl, not_ne_iff.mp h2⟩

/-- Claim C8: every successfully decoded chunk satisfies
`length() == data().len()`, and so does every chunk built by the direct
constructor from data whose length fits in 32 bits. -/
theorem chunk_length_invariant (value : List Nat) (c : Chunk) (t : ChunkType) (d : List Nat)
    (hdec : Chunk.tryFrom value = .ok c) (hfit : d.length < 2 ^ 32) :
    Chunk.length c = (Chunk.data c).length
    ∧ Chunk.length (Chunk.new t d) = (Chunk.data (Chunk.new t d)).length := by
  obtain ⟨hcl, hcd, hlen⟩ := tryFrom_ok_fields hdec
  refine ⟨?_, rfl⟩
  rw [Chunk.length, Chunk.data, hcl, hcd, dataRegion_length value hlen]

/-- Witness for C8 at a concrete decoded chunk and a concrete constructed
chunk. -/
theorem chunk_length_invariant_witness :
    Chunk.length { clength := 0, ctype := ⟨82, 117, 83, 116⟩, cdata := [], ccrc := 3565422908 }
      = (Chunk.data { clength := 0, ctype := ⟨82, 117, 83, 116⟩, cdata := [],
                      ccrc := 3565422908 }).length
    ∧ Chunk.length (Chunk.new ⟨82, 117, 83, 116⟩ [9])
      = (Chunk.data (Chunk.new ⟨82, 117, 83, 116⟩ [9])).length :=
  chunk_length_invariant [0, 0, 0, 0, 82, 117, 83, 116, 212, 132, 9, 60]
    { clength := 0, ctype := ⟨82, 117, 83, 116⟩, cdata := [], ccrc := 3565422908 }
    ⟨82, 117, 83, 116⟩ [9] rfl (by decide)

/-- Claim C9: each bit predicate of ChunkType is a pure function of bit 5
of the corresponding byte: is_critical, is_public and is_reserved_bit_valid
are true iff that bit is 0 in bytes 0, 1 and 2 respectively, and
is_safe_to_copy is true iff that bit is 1 in byte 3. -/
theorem chunkType_bit_predicates (t : ChunkType) :
    (t.is_critical = true ↔ t.t0.testBit 5 = false)
    ∧ (t.is_public = true ↔ t.t1.testBit 5 = false)
    ∧ (t.is_reserved_bit_valid = true ↔ t.t2.testBit 5 = false)
    ∧ (t.is_safe_to_copy = true ↔ t.t3.testBit 5 = true) := by
  unfold ChunkType.is_critical ChunkType.is_public ChunkType.is_reserved_bit_valid
    ChunkType.is_safe_to_copy
  refine ⟨?_, ?_, ?_, ?_⟩ <;>
    simp only [Nat.testBit_to_div_mod, Nat.shiftRight_eq_div_pow, Nat.and_one_is_mod,
      beq_iff_eq, decide_eq_false_iff_not, decide_eq_true_eq] <;>
    omega

/-- Claim C10: the three failures that chunk.rs raises directly (truncated
header, size mismatch, checksum mismatch) are built by throw_string_error,
which ignores its message argument and always produces the message
"Bad Header"; so any two such failures are indistinguishable by message. -/
theorem decode_error_messages (v1 v2 : List Nat) (e1 e2 : DecodeError)
    (h1 : Chunk.tryFrom v1 = .error e1) (h2 : Chunk.tryFrom v2 = .error e2)
    (n1 : e1 ≠ .invalidChunkType) (n2 : e2 ≠ .invalidChunkType) :
    (∀ s, throw_string_error s = "Bad Header")
    ∧ DecodeError.message e1 = "Bad Header"
    ∧ DecodeError.message e2 = "Bad Header"
    ∧ DecodeError.message e1 = DecodeError.message e2 := by
  have m1 : DecodeError.message e1 = "Bad Header" := by
    cases e1 with
    | truncatedHeader => rfl
    | sizeMismatch => rfl
    | invalidChunkType => exact absurd rfl n1
    | checksumMismatch => rfl
  have m2 : DecodeError.message e2 = "Bad Header" := by
    cases e2 with
    | truncatedHeader => rfl
    | sizeMismatch => rfl
    | invalidChunkType => exact absurd rfl n2
    | checksumMismatch => rfl
  exact ⟨fun _ => rfl, m1, m2, m1.trans m2.symm⟩

/-- Witness for C10: a truncated input and a size-mismatched input produce
equal "Bad Header" messages. -/
theorem decode_error_messages_witness :
    (∀ s, throw_string_error s = "Bad Header")
    ∧ DecodeError.message .truncatedHeader = "Bad Header"
    ∧ DecodeError.message .sizeMismatch = "Bad Header"
    ∧ DecodeError.message .truncatedHeader = DecodeError.message .sizeMismatch :=
  decode_error_messages [] [0, 0, 0, 5] .truncatedHeader .sizeMismatch rfl rfl
    (by decide) (by decide)
